import Mathlib

/-!
Shallow embedding of the jumble MCP server (src/main.rs, src/server.rs).

Modelling conventions:
* Rust `HashMap` values become association lists `List (String × α)`; this keeps
  the iteration order explicit (Rust leaves it unspecified), lookups are
  first-match (`alistGet`), and the HashMap invariant that keys are distinct is
  carried as a `Nodup` hypothesis where a theorem needs it.
* Filesystem paths become lists of components plus an absoluteness flag, which is
  exactly what `Path::ends_with` / `Path::parent` operate on.
* The filesystem itself is an abstract `Disk` value: the entry list a directory
  walk yields, plus the (best-effort) load results at each path.  Discovery and
  the query tools are then pure functions of `Disk` and the server state.
* `Result<T, String>` becomes `Except String T`; JSON values become the small
  inductive `Value`.
* Rust's Unicode `to_lowercase` is modelled by `Char.toLower` per character
  (ASCII-faithful); no claim depends on non-ASCII case folding.
-/

namespace Jumble

/-- `str::to_lowercase` (character-wise, ASCII-faithful; built on the character
list rather than `String.map`, which is the same function computably). -/
def lowerStr (s : String) : String :=
  ⟨s.data.map Char.toLower⟩

/-- Does `needle` occur as a contiguous run inside the second list? -/
def listContains (needle : List Char) : List Char → Bool
  | [] => needle.isEmpty
  | c :: rest => needle.isPrefixOf (c :: rest) || listContains needle rest

/-- `str::contains(needle)`: substring test, modelled on the character lists. -/
def containsSub (hay needle : String) : Bool :=
  listContains needle.toList hay.toList

/-- `HashMap::get`: first binding with the given key. -/
def alistGet {α : Type} (m : List (String × α)) (k : String) : Option α :=
  (m.find? (fun p => p.1 == k)).map (fun p => p.2)

/-- `HashMap::insert`: replace the binding if the key is present, else append. -/
def alistInsert {α : Type} (m : List (String × α)) (k : String) (v : α) :
    List (String × α) :=
  if m.any (fun p => p.1 == k) then
    m.map (fun p => if p.1 == k then (k, v) else p)
  else
    m ++ [(k, v)]

/-- The keys of an association list, in order. -/
def alistKeys {α : Type} (m : List (String × α)) : List String :=
  m.map (fun p => p.1)

/-- A filesystem path: absoluteness flag plus the list of components. -/
structure Path where
  abs : Bool
  comps : List String
deriving DecidableEq

/-- `Path::parent`: drop the last component; `none` for an empty component list
(the root path or the empty path). -/
def Path.parent (p : Path) : Option Path :=
  match p.comps with
  | [] => none
  | _ :: _ => some ⟨p.abs, p.comps.dropLast⟩

/-- `Path::ends_with` against a relative pattern, as whole final components. -/
def Path.endsWithComps (p : Path) (pat : List String) : Bool :=
  pat.isSuffixOf p.comps

/-- `Path::display`, canonical rendering of the model path. -/
def Path.display (p : Path) : String :=
  (if p.abs then "/" else "") ++ String.intercalate "/" p.comps

/-- `Path::join` with a string (claims never inspect the result's structure). -/
def Path.joinStr (p : Path) (s : String) : Path :=
  ⟨p.abs, p.comps ++ [s]⟩

/-- A JSON value (`serde_json::Value`), restricted to what the server touches. -/
inductive Value where
  | null : Value
  | boolV (b : Bool) : Value
  | num (n : Int) : Value
  | str (s : String) : Value
  | arr (elems : List Value) : Value
  | obj (fields : List (String × Value)) : Value

/-- `Value::get(key)` on an object; `None` on any other value. -/
def Value.getField : Value → String → Option Value
  | Value.obj fields, k => alistGet fields k
  | _, _ => none

/-- `Value::as_str`. -/
def Value.asStr : Value → Option String
  | Value.str s => some s
  | _ => none

/-- `args.get(key).and_then(|v| v.as_str())`, the argument-extraction idiom. -/
def argStr (args : Value) (k : String) : Option String :=
  (args.getField k).bind Value.asStr

-- ===========================================================================
-- Project configuration types (main.rs lines 24-133)
-- ===========================================================================

structure Concept where
  files : List String
  summary : String
deriving DecidableEq

structure ProjectInfo where
  name : String
  description : String
  language : Option String
  version : Option String
  repository : Option String
deriving DecidableEq

structure Dependencies where
  internal : List String
  external : List String
deriving DecidableEq

structure RelatedProjects where
  upstream : List String
  downstream : List String
deriving DecidableEq

structure ApiInfo where
  openapi : Option String
  base_url : Option String
  endpoints : List String
deriving DecidableEq

structure ProjectConfig where
  project : ProjectInfo
  commands : List (String × String)
  entry_points : List (String × String)
  dependencies : Dependencies
  related_projects : RelatedProjects
  api : Option ApiInfo
  concepts : List (String × Concept)
deriving DecidableEq

/-- Discovered prompts (topic stem ↦ backing file path). -/
structure ProjectPrompts where
  prompts : List (String × Path)
deriving DecidableEq

structure ProjectConventions where
  conventions : List (String × String)
  gotchas : List (String × String)
deriving DecidableEq

structure DocEntry where
  path : String
  summary : String
deriving DecidableEq

structure ProjectDocs where
  docs : List (String × DocEntry)
deriving DecidableEq

structure WorkspaceInfo where
  name : Option String
  description : Option String
deriving DecidableEq

structure WorkspaceConfig where
  workspace : WorkspaceInfo
  conventions : List (String × String)
  gotchas : List (String × String)
deriving DecidableEq

/-- The registry value for one project: the tuple
`(PathBuf, ProjectConfig, ProjectPrompts, ProjectConventions, ProjectDocs)`. -/
structure ProjectData where
  dir : Path
  config : ProjectConfig
  prompts : ProjectPrompts
  conventions : ProjectConventions
  docs : ProjectDocs
deriving DecidableEq

/-- Server state (root path, optional workspace config, project registry). -/
structure Server where
  root : Path
  workspace : Option WorkspaceConfig
  projects : List (String × ProjectData)
deriving DecidableEq

-- ===========================================================================
-- JSON-RPC protocol types (main.rs lines 139-166)
-- ===========================================================================

structure JsonRpcError where
  code : Int
  message : String
  data : Option Value

structure JsonRpcRequest where
  id : Option Value
  method : String
  params : Value

structure JsonRpcResponse where
  id : Option Value
  result : Option Value
  error : Option JsonRpcError

-- ===========================================================================
-- Formatting helpers (main.rs lines 1056-1152)
-- ===========================================================================

def format_commands (commands : List (String × String)) : String :=
  if commands.isEmpty then
    "No commands defined."
  else
    commands.foldl (fun output p =>
      output ++ "- **" ++ p.1 ++ "**: `" ++ p.2 ++ "`\n") ""

def format_entry_points (entry_points : List (String × String)) : String :=
  if entry_points.isEmpty then
    "No entry points defined."
  else
    entry_points.foldl (fun output p =>
      output ++ "- **" ++ p.1 ++ "**: " ++ p.2 ++ "\n") ""

def format_dependencies (deps : Dependencies) : String :=
  let output :=
    (if !deps.internal.isEmpty then
      "**Internal dependencies:**\n" ++
        deps.internal.foldl (fun acc dep => acc ++ "- " ++ dep ++ "\n") ""
     else "") ++
    (if !deps.external.isEmpty then
      "**External dependencies:**\n" ++
        deps.external.foldl (fun acc dep => acc ++ "- " ++ dep ++ "\n") ""
     else "")
  if output.isEmpty then "No dependencies defined." else output

def format_related_projects (related : RelatedProjects) : String :=
  let output :=
    (if !related.upstream.isEmpty then
      "**Upstream (this project depends on):**\n" ++
        related.upstream.foldl (fun acc proj => acc ++ "- " ++ proj ++ "\n") ""
     else "") ++
    (if !related.downstream.isEmpty then
      "**Downstream (depends on this project):**\n" ++
        related.downstream.foldl (fun acc proj => acc ++ "- " ++ proj ++ "\n") ""
     else "")
  if output.isEmpty then "No related projects defined." else output

def format_api (api : Option ApiInfo) : String :=
  match api with
  | some api_info =>
    let output :=
      (match api_info.openapi with
       | some openapi => "**OpenAPI spec:** " ++ openapi ++ "\n"
       | none => "") ++
      (match api_info.base_url with
       | some base_url => "**Base URL:** " ++ base_url ++ "\n"
       | none => "") ++
      (if !api_info.endpoints.isEmpty then
        "**Endpoints:**\n" ++
          api_info.endpoints.foldl (fun acc endpoint => acc ++ "- " ++ endpoint ++ "\n") ""
       else "")
    if output.isEmpty then "API section defined but empty." else output
  | none => "No API information defined."

def format_concept (project_path : Path) (name : String) (concept : Concept) : String :=
  "## " ++ name ++ "\n\n" ++ concept.summary ++ "\n\n**Files:**\n" ++
    concept.files.foldl (fun acc file =>
      acc ++ "- " ++ project_path.display ++ "/" ++ file ++ "\n") ""

-- ===========================================================================
-- Abstract filesystem
-- ===========================================================================

/-- The filesystem as discovery and the prompt reader observe it:
the entry paths a `WalkDir` traversal yields (in traversal order), and the
best-effort load results at each path.  `loadProject p = none` models a read or
parse failure of the descriptor at `p` (`load_project` returning `Err`);
the auxiliary loaders already default to empty on failure in the source, so
they are total here; `workspaceLoad` is the result of `load_workspace_static`. -/
structure Disk where
  walk : List Path
  loadProject : Path → Option ProjectConfig
  promptsAt : Path → ProjectPrompts
  conventionsAt : Path → ProjectConventions
  docsAt : Path → ProjectDocs
  workspaceLoad : Option WorkspaceConfig
  readFile : Path → Except String String

/-- Stable insertion used to model `Vec::sort` on project names. -/
def insertSorted (x : String) : List String → List String
  | [] => [x]
  | y :: ys => if x ≤ y then x :: y :: ys else y :: insertSorted x ys

/-- `Vec::sort` on strings (insertion sort; stable, lexicographic). -/
def sortStrings (l : List String) : List String :=
  l.foldr insertSorted []

-- ===========================================================================
-- Tool implementations (main.rs lines 558-1049)
-- ===========================================================================

def tool_list_projects (s : Server) : Except String String :=
  if s.projects.isEmpty then
    .ok "No projects found. Make sure .jumble/project.toml files exist in your workspace."
  else
    .ok (s.projects.foldl (fun output p =>
      let lang := p.2.config.project.language.getD "unknown"
      output ++ "- **" ++ p.1 ++ "** (" ++ lang ++ "): " ++
        p.2.config.project.description ++ "\n  Path: " ++ p.2.dir.display ++ "\n") "")

def tool_get_project_info (s : Server) (args : Value) : Except String String :=
  match argStr args "project" with
  | none => .error "Missing 'project' argument"
  | some project_name =>
    match alistGet s.projects project_name with
    | none => .error ("Project '" ++ project_name ++ "' not found")
    | some pd =>
      let config := pd.config
      match argStr args "field" with
      | some f =>
        if f = "commands" then .ok (format_commands config.commands)
        else if f = "entry_points" then .ok (format_entry_points config.entry_points)
        else if f = "dependencies" then .ok (format_dependencies config.dependencies)
        else if f = "api" then .ok (format_api config.api)
        else if f = "related_projects" then .ok (format_related_projects config.related_projects)
        else .error ("Unknown field: " ++ f)
      | none =>
        let output := "# " ++ config.project.name ++ "\n\n" ++
          "**Description:** " ++ config.project.description ++ "\n" ++
          (match config.project.language with
           | some lang => "**Language:** " ++ lang ++ "\n"
           | none => "") ++
          (match config.project.version with
           | some version => "**Version:** " ++ version ++ "\n"
           | none => "") ++
          (match config.project.repository with
           | some repo => "**Repository:** " ++ repo ++ "\n"
           | none => "") ++
          "**Path:** " ++ pd.dir.display ++ "\n" ++
          (if !config.entry_points.isEmpty then
            "\n## Entry Points\n" ++ format_entry_points config.entry_points
           else "") ++
          (if !config.concepts.isEmpty then
            "\n## Concepts\n" ++ config.concepts.foldl (fun acc p =>
              acc ++ "- **" ++ p.1 ++ "**: " ++ p.2.summary ++ "\n") ""
           else "")
        .ok output

def tool_get_commands (s : Server) (args : Value) : Except String String :=
  match argStr args "project" with
  | none => .error "Missing 'project' argument"
  | some project_name =>
    match alistGet s.projects project_name with
    | none => .error ("Project '" ++ project_name ++ "' not found")
    | some pd =>
      match argStr args "command_type" with
      | some cmd_type =>
        match alistGet pd.config.commands cmd_type with
        | some cmd => .ok (cmd_type ++ ": " ++ cmd)
        | none => .error ("Command '" ++ cmd_type ++ "' not found for project '" ++
            project_name ++ "'")
      | none => .ok (format_commands pd.config.commands)

/-- The stage-2 predicate of `tool_get_architecture`: case-insensitive key match. -/
def ciMatch (lower : String) (p : String × Concept) : Bool :=
  lowerStr p.1 == lower

/-- The stage-3 predicate of `tool_get_architecture` (also the match predicate of
`tool_get_related_files`): case-insensitive substring of the key or the summary. -/
def subMatch (lower : String) (p : String × Concept) : Bool :=
  containsSub (lowerStr p.1) lower || containsSub (lowerStr p.2.summary) lower

def tool_get_architecture (s : Server) (args : Value) : Except String String :=
  match argStr args "project" with
  | none => .error "Missing 'project' argument"
  | some project_name =>
    match argStr args "concept" with
    | none => .error "Missing 'concept' argument"
    | some concept_name =>
      match alistGet s.projects project_name with
      | none => .error ("Project '" ++ project_name ++ "' not found")
      | some pd =>
        let config := pd.config
        -- Try exact match first
        match alistGet config.concepts concept_name with
        | some concept => .ok (format_concept pd.dir concept_name concept)
        | none =>
          -- Try case-insensitive match
          let concept_lower := lowerStr concept_name
          match config.concepts.find? (ciMatch concept_lower) with
          | some p => .ok (format_concept pd.dir p.1 p.2)
          | none =>
            -- Try partial match
            match config.concepts.find? (subMatch concept_lower) with
            | some p => .ok (format_concept pd.dir p.1 p.2)
            | none =>
              .error ("Concept '" ++ concept_name ++ "' not found. Available concepts: " ++
                String.intercalate ", " (alistKeys config.concepts))

def tool_get_related_files (s : Server) (args : Value) : Except String String :=
  match argStr args "project" with
  | none => .error "Missing 'project' argument"
  | some project_name =>
    match argStr args "query" with
    | none => .error "Missing 'query' argument"
    | some query =>
      match alistGet s.projects project_name with
      | none => .error ("Project '" ++ project_name ++ "' not found")
      | some pd =>
        let query_lower := lowerStr query
        let matched_files := pd.config.concepts.foldl (fun acc p =>
          if subMatch query_lower p then acc ++ [p] else acc) []
        if matched_files.isEmpty then
          .error ("No concepts matching '" ++ query ++ "' found")
        else
          .ok (matched_files.foldl (fun output p =>
            output ++ "## " ++ p.1 ++ "\n" ++ p.2.summary ++ "\n\nFiles:\n" ++
              p.2.files.foldl (fun acc file =>
                acc ++ "- " ++ pd.dir.display ++ "/" ++ file ++ "\n") "" ++ "\n")
            ("Files related to '" ++ query ++ "': \n\n"))

def tool_list_prompts (s : Server) (args : Value) : Except String String :=
  match argStr args "project" with
  | none => .error "Missing 'project' argument"
  | some project_name =>
    match alistGet s.projects project_name with
    | none => .error ("Project '" ++ project_name ++ "' not found")
    | some pd =>
      if pd.prompts.prompts.isEmpty then
        .ok ("No prompts found for '" ++ project_name ++
          "'. Create .jumble/prompts/*.md files to add task-specific context.")
      else
        .ok (("Available prompts for '" ++ project_name ++ "':\n\n") ++
          pd.prompts.prompts.foldl (fun output p => output ++ "- " ++ p.1 ++ "\n") "" ++
          "\nUse get_prompt(project, topic) to retrieve a specific prompt.")

def tool_get_prompt (disk : Disk) (s : Server) (args : Value) : Except String String :=
  match argStr args "project" with
  | none => .error "Missing 'project' argument"
  | some project_name =>
    match argStr args "topic" with
    | none => .error "Missing 'topic' argument"
    | some topic =>
      match alistGet s.projects project_name with
      | none => .error ("Project '" ++ project_name ++ "' not found")
      | some pd =>
        match alistGet pd.prompts.prompts topic with
        | none =>
          if pd.prompts.prompts.isEmpty then
            .error ("No prompts found for '" ++ project_name ++ "'")
          else
            .error ("Prompt '" ++ topic ++ "' not found. Available: " ++
              String.intercalate ", " (alistKeys pd.prompts.prompts))
        | some prompt_path =>
          match disk.readFile prompt_path with
          | .ok content => .ok content
          | .error e => .error ("Failed to read prompt: " ++ e)

/-- Renders one conventions/gotchas section: heading plus `## name` / body pairs. -/
def renderSection (heading : String) (entries : List (String × String)) : String :=
  heading ++ entries.foldl (fun output p =>
    output ++ "## " ++ p.1 ++ "\n" ++ p.2 ++ "\n\n") ""

def tool_get_conventions (s : Server) (args : Value) : Except String String :=
  match argStr args "project" with
  | none => .error "Missing 'project' argument"
  | some project_name =>
    let category := argStr args "category"
    match alistGet s.projects project_name with
    | none => .error ("Project '" ++ project_name ++ "' not found")
    | some pd =>
      let conventions := pd.conventions
      let has_conventions := !conventions.conventions.isEmpty
      let has_gotchas := !conventions.gotchas.isEmpty
      if !has_conventions && !has_gotchas then
        .ok ("No conventions found for '" ++ project_name ++
          "'. Create .jumble/conventions.toml to add project-specific conventions and gotchas.")
      else
        match category with
        | some c =>
          if c = "conventions" then
            if !has_conventions then .ok "No conventions defined."
            else .ok (renderSection ("# Conventions for '" ++ project_name ++ "'\n\n")
              conventions.conventions)
          else if c = "gotchas" then
            if !has_gotchas then .ok "No gotchas defined."
            else .ok (renderSection ("# Gotchas for '" ++ project_name ++ "'\n\n")
              conventions.gotchas)
          else
            .error ("Unknown category '" ++ c ++ "'. Use 'conventions' or 'gotchas'.")
        | none =>
          .ok ((if has_conventions then
              renderSection ("# Conventions for '" ++ project_name ++ "'\n\n")
                conventions.conventions
            else "") ++
            (if has_gotchas then
              renderSection ("# Gotchas for '" ++ project_name ++ "'\n\n")
                conventions.gotchas
            else ""))

def tool_get_docs (s : Server) (args : Value) : Except String String :=
  match argStr args "project" with
  | none => .error "Missing 'project' argument"
  | some project_name =>
    let topic := argStr args "topic"
    match alistGet s.projects project_name with
    | none => .error ("Project '" ++ project_name ++ "' not found")
    | some pd =>
      if pd.docs.docs.isEmpty then
        .ok ("No documentation index found for '" ++ project_name ++
          "'. Create .jumble/docs.toml to index project documentation.")
      else
        match topic with
        | some t =>
          match alistGet pd.docs.docs t with
          | none =>
            .error ("Doc '" ++ t ++ "' not found. Available: " ++
              String.intercalate ", " (alistKeys pd.docs.docs))
          | some doc =>
            .ok ("## " ++ t ++ "\n**Summary:** " ++ doc.summary ++ "\n**Path:** " ++
              (pd.dir.joinStr doc.path).display)
        | none =>
          .ok (("# Documentation for '" ++ project_name ++ "'\n\n") ++
            pd.docs.docs.foldl (fun output p =>
              output ++ "- **" ++ p.1 ++ "**: " ++ p.2.summary ++ "\n") "" ++
            "\nUse get_docs(project, topic) to get the path to a specific doc.")

def tool_get_workspace_overview (s : Server) : Except String String :=
  let header :=
    (match s.workspace with
     | some ws =>
       (match ws.workspace.name with
        | some name => "# " ++ name ++ "\n\n"
        | none => "# Workspace Overview\n\n") ++
       (match ws.workspace.description with
        | some desc => desc ++ "\n\n"
        | none => "")
     | none => "# Workspace Overview\n\n") ++
    "**Root:** " ++ s.root.display ++ "\n\n"
  if s.projects.isEmpty then
    .ok (header ++ "No projects found.\n")
  else
    let project_names := sortStrings (alistKeys s.projects)
    let listing := project_names.foldl (fun output name =>
      match alistGet s.projects name with
      | some pd =>
        let lang := pd.config.project.language.getD "unknown"
        output ++ "- **" ++ name ++ "** (" ++ lang ++ "): " ++
          pd.config.project.description ++ "\n"
      | none => output) ("## Projects\n\n")   -- lookup cannot fail: names are the keys
    let deps := project_names.foldl (fun output name =>
      match alistGet s.projects name with
      | some pd =>
        let upstream := pd.config.related_projects.upstream
        let downstream := pd.config.related_projects.downstream
        if !upstream.isEmpty || !downstream.isEmpty then
          output ++ "**" ++ name ++ "**:\n" ++
            (if !upstream.isEmpty then
              "  ← depends on: " ++ String.intercalate ", " upstream ++ "\n"
            else "") ++
            (if !downstream.isEmpty then
              "  → used by: " ++ String.intercalate ", " downstream ++ "\n"
            else "")
        else output
      | none => output) ""
    let has_deps := project_names.any (fun name =>
      match alistGet s.projects name with
      | some pd => !pd.config.related_projects.upstream.isEmpty ||
          !pd.config.related_projects.downstream.isEmpty
      | none => false)
    .ok (header ++ listing ++ "\n## Dependencies\n\n" ++
      (if has_deps then deps else "No cross-project dependencies defined.\n") ++
      (if s.workspace.isSome then
        "\n*Use get_workspace_conventions() for workspace-wide coding standards.*"
      else ""))

def tool_get_workspace_conventions (s : Server) (args : Value) : Except String String :=
  match s.workspace with
  | none => .error ("No workspace.toml found. Create .jumble/workspace.toml at the " ++
      "workspace root to define workspace-level conventions.")
  | some ws =>
    let category := argStr args "category"
    let has_conventions := !ws.conventions.isEmpty
    let has_gotchas := !ws.gotchas.isEmpty
    if !has_conventions && !has_gotchas then
      .ok "Workspace config exists but no conventions or gotchas defined."
    else
      let ws_name := ws.workspace.name.getD "Workspace"
      match category with
      | some c =>
        if c = "conventions" then
          if !has_conventions then .ok "No workspace conventions defined."
          else .ok (renderSection ("# " ++ ws_name ++ " Conventions\n\n") ws.conventions)
        else if c = "gotchas" then
          if !has_gotchas then .ok "No workspace gotchas defined."
          else .ok (renderSection ("# " ++ ws_name ++ " Gotchas\n\n") ws.gotchas)
        else
          .error ("Unknown category '" ++ c ++ "'. Use 'conventions' or 'gotchas'.")
      | none =>
        .ok ((if has_conventions then
            renderSection ("# " ++ ws_name ++ " Conventions\n\n") ws.conventions
          else "") ++
          (if has_gotchas then
            renderSection ("# " ++ ws_name ++ " Gotchas\n\n") ws.gotchas
          else ""))

-- ===========================================================================
-- Protocol dispatcher (main.rs lines 286-552)
-- ===========================================================================

/-- The tool-name dispatch table of `handle_tools_call` (main.rs lines 522-535). -/
def toolDispatch (disk : Disk) (s : Server) (name : String) (arguments : Value) :
    Except String String :=
  if name = "list_projects" then tool_list_projects s
  else if name = "get_project_info" then tool_get_project_info s arguments
  else if name = "get_commands" then tool_get_commands s arguments
  else if name = "get_architecture" then tool_get_architecture s arguments
  else if name = "get_related_files" then tool_get_related_files s arguments
  else if name = "list_prompts" then tool_list_prompts s arguments
  else if name = "get_prompt" then tool_get_prompt disk s arguments
  else if name = "get_conventions" then tool_get_conventions s arguments
  else if name = "get_docs" then tool_get_docs s arguments
  else if name = "get_workspace_overview" then tool_get_workspace_overview s
  else if name = "get_workspace_conventions" then tool_get_workspace_conventions s arguments
  else .error ("Unknown tool: " ++ name)

/-- The payload wrapped around a successful tool result (main.rs lines 538-543). -/
def successPayload (content : String) : Value :=
  Value.obj [("content", Value.arr [Value.obj
    [("type", Value.str "text"), ("text", Value.str content)]])]

/-- The payload wrapped around a tool-level error (main.rs lines 544-550):
an error-flagged text block inside a protocol-level success. -/
def errorPayload (msg : String) : Value :=
  Value.obj [("content", Value.arr [Value.obj
    [("type", Value.str "text"), ("text", Value.str ("Error: " ++ msg))]]),
    ("isError", Value.boolV true)]

/-- `handle_tools_call` (main.rs lines 510-552): a missing or non-string `name`
parameter is the protocol error -32602; every tool result, `Ok` or `Err`, is a
protocol success. -/
def handle_tools_call (disk : Disk) (s : Server) (params : Value) :
    Except JsonRpcError Value :=
  match argStr params "name" with
  | none => .error ⟨-32602, "Missing 'name' parameter", none⟩
  | some name =>
    let arguments := (params.getField "arguments").getD (Value.obj [])
    match toolDispatch disk s name arguments with
    | .ok content => .ok (successPayload content)
    | .error msg => .ok (errorPayload msg)

/-- Version string baked in at compile time via `env!("CARGO_PKG_VERSION")`;
the crate manifest is outside the embedded sources, and no claim depends on it. -/
def cargoPkgVersion : String := "0.1.0"

/-- `handle_initialize` (main.rs lines 315-326). -/
def handle_initialize : Except JsonRpcError Value :=
  .ok (Value.obj [
    ("protocolVersion", Value.str "2024-11-05"),
    ("capabilities", Value.obj [("tools", Value.obj [])]),
    ("serverInfo", Value.obj [("name", Value.str "jumble"),
      ("version", Value.str cargoPkgVersion)])])

/-- The static tool catalog returned by `handle_tools_list` (main.rs lines
328-508).  Only the tool names are reproduced; the per-tool description and
input-schema strings are elided, as no claim concerns them. -/
def toolsCatalog : Value :=
  Value.obj [("tools", Value.arr
    (["list_projects", "get_project_info", "get_commands", "get_architecture",
      "get_related_files", "list_prompts", "get_prompt", "get_conventions",
      "get_docs", "get_workspace_overview", "get_workspace_conventions"].map
      (fun n => Value.obj [("name", Value.str n)])))]

def handle_tools_list : Except JsonRpcError Value :=
  .ok toolsCatalog

/-- The method-dispatch match of `handle_request` (main.rs lines 287-297). -/
def methodDispatch (disk : Disk) (s : Server) (method : String) (params : Value) :
    Except JsonRpcError Value :=
  if method = "initialize" then handle_initialize
  else if method = "initialized" then .ok (Value.obj [])
  else if method = "tools/list" then handle_tools_list
  else if method = "tools/call" then handle_tools_call disk s params
  else .error ⟨-32601, "Method not found: " ++ method, none⟩

/-- `handle_request` (main.rs lines 286-313): method dispatch, then the
`Ok`/`Err` outcome becomes a response with exactly one of `result` / `error`. -/
def handle_request (disk : Disk) (s : Server) (request : JsonRpcRequest) :
    JsonRpcResponse :=
  match methodDispatch disk s request.method request.params with
  | .ok value => ⟨request.id, some value, none⟩
  | .error error => ⟨request.id, none, some error⟩

-- ===========================================================================
-- Discovery (main.rs lines 202-228, server.rs lines 51-80)
-- ===========================================================================

/-- The marker suffix `.jumble/project.toml`, as path components. -/
def jumbleMarker : List String := [".jumble", "project.toml"]

/-- One step of the discovery fold, for a single walk entry.  The source's
`path.parent().unwrap()` is totalised with `Option.getD`; the `none` branch is
unreachable for a path that passes the marker guard (see the safety theorem on
`Path.parent`). -/
def discoverStep (disk : Disk) (projects : List (String × ProjectData)) (path : Path) :
    List (String × ProjectData) :=
  if path.endsWithComps jumbleMarker then
    match disk.loadProject path with
    | some config =>
      let project_dir := ((path.parent).bind Path.parent).getD path
      let jumble_dir := (path.parent).getD path
      alistInsert projects config.project.name
        ⟨project_dir, config, disk.promptsAt jumble_dir,
          disk.conventionsAt jumble_dir, disk.docsAt jumble_dir⟩
    | none => projects
  else projects

/-- `discover_projects`: walk the tree, load every parseable marker, key the
registry by project name (server.rs lines 51-80; main.rs lines 202-228 is the
same fold with the map held in `self`). -/
def discover_projects (disk : Disk) : List (String × ProjectData) :=
  disk.walk.foldl (discoverStep disk) []

/-- The `(name, data)` pair a single walk entry contributes — `some` exactly when
the entry is a marker whose descriptor parses. -/
def discoverPair (disk : Disk) (path : Path) : Option (String × ProjectData) :=
  if path.endsWithComps jumbleMarker then
    match disk.loadProject path with
    | some config =>
      some (config.project.name,
        ⟨((path.parent).bind Path.parent).getD path, config,
          disk.promptsAt ((path.parent).getD path),
          disk.conventionsAt ((path.parent).getD path),
          disk.docsAt ((path.parent).getD path)⟩)
    | none => none
  else none

/-- The `(name, data)` pairs discovery would insert, in traversal order. -/
def discoveredPairs (disk : Disk) : List (String × ProjectData) :=
  disk.walk.filterMap (discoverPair disk)

-- ===========================================================================
-- server.rs variant: reload pseudo-tool (server.rs lines 33-37, 174-224)
-- ===========================================================================

/-- `reload_workspace_and_projects` (server.rs lines 33-37): rebuild workspace
descriptor and registry wholesale from current disk state. -/
def reload_workspace_and_projects (disk : Disk) (s : Server) : Server :=
  { s with workspace := disk.workspaceLoad, projects := discover_projects disk }

/-- The server.rs tool dispatch (lines 186-207): the `reload_workspace`
pseudo-tool mutates the server state; every other name behaves as in main.rs
(the delegated `tools::*` functions carry the same bodies). -/
def srvDispatch (disk : Disk) (s : Server) (name : String) (arguments : Value) :
    Except String String × Server :=
  if name = "reload_workspace" then
    (.ok "Workspace and projects reloaded from disk.", reload_workspace_and_projects disk s)
  else
    (toolDispatch disk s name arguments, s)

/-- `handle_tools_call` of server.rs (lines 174-224), with the state threaded. -/
def srv_handle_tools_call (disk : Disk) (s : Server) (params : Value) :
    Except JsonRpcError Value × Server :=
  match argStr params "name" with
  | none => (.error ⟨-32602, "Missing 'name' parameter", none⟩, s)
  | some name =>
    let arguments := (params.getField "arguments").getD (Value.obj [])
    match srvDispatch disk s name arguments with
    | (.ok content, s1) => (.ok (successPayload content), s1)
    | (.error msg, s1) => (.ok (errorPayload msg), s1)

-- ===========================================================================
-- Concrete fixtures for witnesses and counterexamples
-- ===========================================================================

deriving instance DecidableEq for Except

/-- `tools/call` params with a tool name and an arguments object. -/
def mkCallParams (name : String) (arguments : Value) : Value :=
  Value.obj [("name", Value.str name), ("arguments", arguments)]

def conceptAuth : Concept := ⟨["src/auth.rs"], "login flow"⟩

def conceptOauth : Concept := ⟨["src/oauth.rs"], "token exchange"⟩

def projInfoP : ProjectInfo := ⟨"p", "demo project", none, none, none⟩

/-- A config whose concept mapping iterates `auth` before `oauth`. -/
def configA : ProjectConfig :=
  ⟨projInfoP, [("build", "make")], [], ⟨[], []⟩, ⟨[], []⟩, none,
    [("auth", conceptAuth), ("oauth", conceptOauth)]⟩

/-- The same registry content as `configA`, with the concept mapping iterating
in the opposite order (a permutation, as a `HashMap` may produce on any run). -/
def configB : ProjectConfig :=
  ⟨projInfoP, [("build", "make")], [], ⟨[], []⟩, ⟨[], []⟩, none,
    [("oauth", conceptOauth), ("auth", conceptAuth)]⟩

def dirP : Path := ⟨true, ["ws", "p"]⟩

def rootWs : Path := ⟨true, ["ws"]⟩

def pdA : ProjectData := ⟨dirP, configA, ⟨[]⟩, ⟨[], []⟩, ⟨[]⟩⟩

def pdB : ProjectData := ⟨dirP, configB, ⟨[]⟩, ⟨[], []⟩, ⟨[]⟩⟩

def serverA : Server := ⟨rootWs, none, [("p", pdA)]⟩

def serverB : Server := ⟨rootWs, none, [("p", pdB)]⟩

def argsConceptAut : Value :=
  Value.obj [("project", Value.str "p"), ("concept", Value.str "aut")]

def argsBadCategory : Value :=
  Value.obj [("project", Value.str "p"), ("category", Value.str "weird")]

def argsConceptOAuth : Value :=
  Value.obj [("project", Value.str "p"), ("concept", Value.str "OAuth")]

/-- A project with a non-empty conventions file. -/
def pdConv : ProjectData :=
  ⟨dirP, configA, ⟨[]⟩, ⟨[("naming", "snake_case")], []⟩, ⟨[]⟩⟩

def wsConfig : WorkspaceConfig := ⟨⟨some "WS", none⟩, [("style", "tabs")], []⟩

def serverConv : Server := ⟨rootWs, some wsConfig, [("p", pdConv)]⟩

/-- A project with a non-empty docs index (without a `guide` topic). -/
def pdDocs : ProjectData :=
  ⟨dirP, configA, ⟨[]⟩, ⟨[], []⟩, ⟨[("setup", ⟨"docs/setup.md", "how to set up"⟩)]⟩⟩

def serverDocs : Server := ⟨rootWs, none, [("p", pdDocs)]⟩

def argsDocsGuide : Value :=
  Value.obj [("project", Value.str "p"), ("topic", Value.str "guide")]

def argsQueryAuth : Value :=
  Value.obj [("project", Value.str "p"), ("query", Value.str "auth")]

def argsQueryZzz : Value :=
  Value.obj [("project", Value.str "p"), ("query", Value.str "zzz")]

def argsProjectP : Value := Value.obj [("project", Value.str "p")]

def argsProjectQ : Value := Value.obj [("project", Value.str "q")]

def pathMarkerP : Path := ⟨true, ["ws", "p", ".jumble", "project.toml"]⟩

def pathMarkerQ : Path := ⟨true, ["ws", "q", ".jumble", "project.toml"]⟩

/-- A disk whose walk meets two markers; the descriptor at project `q` is
malformed (its load fails), the one at `p` parses to `configA`. -/
def diskPQ : Disk :=
  ⟨[pathMarkerP, pathMarkerQ],
   (fun path => if path = pathMarkerP then some configA else none),
   (fun _ => ⟨[]⟩), (fun _ => ⟨[], []⟩), (fun _ => ⟨[]⟩), none,
   (fun _ => .error "io error")⟩

/-- A server whose registry predates the state of `diskPQ` (empty registry). -/
def serverStale : Server := ⟨rootWs, some wsConfig, []⟩

-- ===========================================================================
-- Helper lemmas
-- ===========================================================================

theorem replace_fst {α : Type} (k : String) (v : α) (p : String × α) :
    (if p.1 == k then (k, v) else p).1 = p.1 := by
  by_cases h : (p.1 == k) = true
  · simp only [h, if_true]
    exact (beq_iff_eq.mp h).symm
  · simp [h]

theorem alistGet_insert {α : Type} (m : List (String × α)) (k : String) (v : α)
    (n : String) :
    alistGet (alistInsert m k v) n = if k == n then some v else alistGet m n := by
  unfold alistInsert
  by_cases hany : m.any (fun p => p.1 == k) = true
  · simp only [hany, if_true, alistGet, List.find?_map]
    have hpred : ((fun p : String × α => p.1 == n) ∘
        (fun p => if p.1 == k then (k, v) else p)) = fun p => p.1 == n := by
      funext p
      by_cases h : p.1 = k <;> simp [Function.comp_apply, h]
    rw [hpred]
    by_cases hkn : (k == n) = true
    · have hk : k = n := beq_iff_eq.mp hkn
      subst hk
      rcases List.any_eq_true.mp hany with ⟨p, hp, hpk⟩
      have hsome : (m.find? (fun p => p.1 == k)).isSome := by
        rw [List.find?_isSome]
        exact ⟨p, hp, hpk⟩
      rcases Option.isSome_iff_exists.mp hsome with ⟨q, hq⟩
      have hqk := List.find?_some hq
      simp only at hqk
      have hqk' : q.1 = k := beq_iff_eq.mp hqk
      simp [hq, hqk']
    · have hkn' : ¬k = n := fun h => hkn (beq_iff_eq.mpr h)
      cases hm : m.find? (fun p => p.1 == n) with
      | none => simp [hm, hkn']
      | some q =>
        have hqn := List.find?_some hm
        simp only at hqn
        have hqk : ¬(q.1 = k) := fun h => hkn' (h ▸ beq_iff_eq.mp hqn)
        simp [hm, hkn', hqk]
  · simp only [hany, if_false, alistGet, List.find?_append]
    have hany' : m.any (fun p => p.1 == k) = false := Bool.not_eq_true _ ▸ hany
    have hnok : m.find? (fun p => p.1 == k) = none := by
      rw [List.find?_eq_none]
      intro p hp
      simpa using List.any_eq_false.mp hany' p hp
    by_cases hkn : (k == n) = true
    · have hk : k = n := beq_iff_eq.mp hkn
      subst hk
      simp [hnok, List.find?, hkn]
    · have hkn' : ¬k = n := fun h => hkn (beq_iff_eq.mpr h)
      have hknb : (k == n) = false := beq_false_of_ne hkn'
      cases hm : m.find? (fun p => p.1 == n) with
      | none => simp [hm, List.find?, hknb, hkn']
      | some q => simp [hm, hkn']

theorem alistKeys_insert {α : Type} (m : List (String × α)) (k : String) (v : α)
    (hnew : m.any (fun p => p.1 == k) = false) :
    alistKeys (alistInsert m k v) = alistKeys m ++ [k] := by
  unfold alistInsert
  simp [hnew, alistKeys]

theorem alistKeys_insert_mem {α : Type} (m : List (String × α)) (k : String) (v : α)
    (hmem : m.any (fun p => p.1 == k) = true) :
    alistKeys (alistInsert m k v) = alistKeys m := by
  unfold alistInsert
  simp only [hmem, if_true, alistKeys, List.map_map]
  apply List.map_congr_left
  intro p _
  simpa [Function.comp_apply] using replace_fst k v p

theorem alistInsert_nodup {α : Type} (m : List (String × α)) (k : String) (v : α)
    (hnd : (alistKeys m).Nodup) : (alistKeys (alistInsert m k v)).Nodup := by
  by_cases hany : m.any (fun p => p.1 == k) = true
  · rw [alistKeys_insert_mem m k v hany]; exact hnd
  · have hany' : m.any (fun p => p.1 == k) = false := Bool.not_eq_true _ ▸ hany
    rw [alistKeys_insert m k v hany']
    have hk : k ∉ alistKeys m := by
      intro hmem
      rcases List.mem_map.mp hmem with ⟨p, hp, hpk⟩
      have := List.any_eq_false.mp hany' p hp
      rw [hpk] at this
      simp at this
    simp [List.nodup_append, hnd, hk]

theorem alistGet_eq_of_mem_nodup {α : Type} {m : List (String × α)} {k : String}
    {v : α} (hnd : (alistKeys m).Nodup) (hmem : (k, v) ∈ m) :
    alistGet m k = some v := by
  induction m with
  | nil => simp at hmem
  | cons hd tl ih =>
    rcases List.mem_cons.mp hmem with heq | htl
    · subst heq
      simp [alistGet, List.find?]
    · have hnd' : hd.1 ∉ alistKeys tl ∧ (alistKeys tl).Nodup := by
        rw [show alistKeys (hd :: tl) = hd.1 :: alistKeys tl from rfl] at hnd
        exact List.nodup_cons.mp hnd
      have hk : hd.1 ≠ k := by
        intro h
        exact hnd'.1 (h ▸ List.mem_map.mpr ⟨(k, v), htl, rfl⟩)
      have := ih hnd'.2 htl
      simpa [alistGet, List.find?, beq_false_of_ne hk] using this

theorem discoverStep_eq (disk : Disk) (projects : List (String × ProjectData))
    (path : Path) :
    discoverStep disk projects path =
      match discoverPair disk path with
      | some nd => alistInsert projects nd.1 nd.2
      | none => projects := by
  unfold discoverStep discoverPair
  by_cases h : path.endsWithComps jumbleMarker = true
  · simp only [h, if_true]
    cases hl : disk.loadProject path <;> simp [hl]
  · simp [h]

theorem discoverStep_of_load_none (disk : Disk) (projects : List (String × ProjectData))
    (path : Path) (h : disk.loadProject path = none) :
    discoverStep disk projects path = projects := by
  unfold discoverStep
  by_cases hm : path.endsWithComps jumbleMarker = true
  · simp [hm, h]
  · simp [hm]

theorem discover_foldl_get (disk : Disk) (l : List Path) :
    ∀ (acc : List (String × ProjectData)) (n : String),
    alistGet (l.foldl (discoverStep disk) acc) n =
      (((l.filterMap (discoverPair disk)).reverse.find? (fun p => p.1 == n)).map
        (fun p => p.2)).or (alistGet acc n) := by
  induction l with
  | nil => intro acc n; simp
  | cons p l ih =>
    intro acc n
    rw [List.foldl_cons, ih (discoverStep disk acc p) n, discoverStep_eq]
    cases hp : discoverPair disk p with
    | none => simp [List.filterMap_cons, hp]
    | some nd =>
      simp only [List.filterMap_cons, hp, List.reverse_cons, List.find?_append,
        alistGet_insert]
      cases hfind : (l.filterMap (discoverPair disk)).reverse.find?
          (fun q => q.1 == n) with
      | some q => simp [hfind]
      | none =>
        by_cases hn : (nd.1 == n) = true
        · simp [hfind, List.find?, hn]
        · have hn' : (nd.1 == n) = false := Bool.not_eq_true _ ▸ hn
          simp [hfind, List.find?, hn', hn]

theorem discover_foldl_nodup (disk : Disk) (l : List Path) :
    ∀ acc : List (String × ProjectData), (alistKeys acc).Nodup →
    (alistKeys (l.foldl (discoverStep disk) acc)).Nodup := by
  induction l with
  | nil => intro acc h; simpa using h
  | cons p l ih =>
    intro acc h
    rw [List.foldl_cons]
    apply ih
    rw [discoverStep_eq]
    cases hp : discoverPair disk p with
    | none => exact h
    | some nd => exact alistInsert_nodup _ _ _ h

theorem foldl_append_filter {α : Type} (f : α → Bool) (l : List α) :
    ∀ acc : List α,
    l.foldl (fun acc p => if f p then acc ++ [p] else acc) acc = acc ++ l.filter f := by
  induction l with
  | nil => intro acc; simp
  | cons x l ih =>
    intro acc
    rw [List.foldl_cons]
    by_cases h : f x = true
    · rw [if_pos h, ih, List.filter_cons_of_pos h]
      simp
    · rw [if_neg h, ih, List.filter_cons_of_neg h]

theorem mkCallParams_name (n : String) (a : Value) :
    argStr (mkCallParams n a) "name" = some n := rfl

theorem mkCallParams_arguments (n : String) (a : Value) :
    (mkCallParams n a).getField "arguments" = some a := rfl

theorem handle_tools_call_err (disk : Disk) (s : Server) (params : Value)
    (name msg : String) (hname : argStr params "name" = some name)
    (hdisp : toolDispatch disk s name
      ((params.getField "arguments").getD (Value.obj [])) = .error msg) :
    handle_tools_call disk s params = .ok (errorPayload msg) := by
  unfold handle_tools_call
  rw [hname]
  simp [hdisp]

theorem handle_tools_call_ok (disk : Disk) (s : Server) (params : Value)
    (name content : String) (hname : argStr params "name" = some name)
    (hdisp : toolDispatch disk s name
      ((params.getField "arguments").getD (Value.obj [])) = .ok content) :
    handle_tools_call disk s params = .ok (successPayload content) := by
  unfold handle_tools_call
  rw [hname]
  simp [hdisp]

-- ===========================================================================
-- Claim theorems
-- ===========================================================================

/-- C10: a walk entry whose path passes the guard `ends_with ".jumble/project.toml"`
always has a parent directory, so the `path.parent().unwrap()` inside
`discover_projects` cannot panic: under the guard, `Path.parent` is `some`. -/
theorem marker_path_parent_exists (p : Path)
    (h : p.endsWithComps jumbleMarker = true) :
    (Path.parent p).isSome = true := by
  unfold Path.endsWithComps at h
  cases hc : p.comps with
  | nil =>
    rw [hc] at h
    exact absurd h (by decide)
  | cons a l => simp [Path.parent, hc]

/-- Witness for C10 at a concrete marker path. -/
theorem marker_path_parent_exists_witness :
    Path.endsWithComps ⟨true, ["ws", "p", ".jumble", "project.toml"]⟩ jumbleMarker = true ∧
    (Path.parent ⟨true, ["ws", "p", ".jumble", "project.toml"]⟩).isSome = true :=
  ⟨by decide, marker_path_parent_exists _ (by decide)⟩

/-- C4: after any discovery pass the registry keys are distinct (each project
name maps to exactly one entry), and the entry stored under a name is the one
contributed by the *last* marker in traversal order that parses to that name —
an earlier entry with a duplicate name is silently overwritten.  Discovery is a
total fold: a duplicate never aborts it. -/
theorem discovery_last_write_wins (disk : Disk) :
    (alistKeys (discover_projects disk)).Nodup ∧
    ∀ n : String, alistGet (discover_projects disk) n =
      ((discoveredPairs disk).reverse.find? (fun p => p.1 == n)).map (fun p => p.2) := by
  constructor
  · exact discover_foldl_nodup disk disk.walk [] (by simp [alistKeys])
  · intro n
    have h := discover_foldl_get disk disk.walk [] n
    simpa [discover_projects, discoveredPairs, alistGet] using h

/-- C7: a walk entry whose descriptor fails to load contributes nothing: the
discovery result over a walk containing it equals the result over the walk with
that entry removed (the scan is not aborted — discovery is a total fold — and
the error is not surfaced: the result type carries no error).  In particular
every sibling project discovered from the rest of the walk is still present. -/
theorem discovery_skips_unparseable (disk : Disk) (l1 l2 : List Path) (p : Path)
    (h : disk.loadProject p = none) :
    discover_projects { disk with walk := l1 ++ p :: l2 } =
      discover_projects { disk with walk := l1 ++ l2 } ∧
    ∀ n d, alistGet (discover_projects { disk with walk := l1 ++ l2 }) n = some d →
      alistGet (discover_projects { disk with walk := l1 ++ p :: l2 }) n = some d := by
  have hstep : ∀ w, discoverStep { disk with walk := w } = discoverStep disk :=
    fun _ => rfl
  have heq : discover_projects { disk with walk := l1 ++ p :: l2 } =
      discover_projects { disk with walk := l1 ++ l2 } := by
    unfold discover_projects
    rw [show ({ disk with walk := l1 ++ p :: l2 } : Disk).walk = l1 ++ p :: l2 from rfl]
    rw [show ({ disk with walk := l1 ++ l2 } : Disk).walk = l1 ++ l2 from rfl]
    simp only [hstep]
    rw [List.foldl_append, List.foldl_append, List.foldl_cons,
      discoverStep_of_load_none disk _ p h]
  exact ⟨heq, fun n d hd => heq ▸ hd⟩

/-- Witness for C7: with the malformed descriptor at `q` on the walk, the
registry is the same as without it, and the sibling `p` is still discovered. -/
theorem discovery_skips_unparseable_witness :
    diskPQ.loadProject pathMarkerQ = none ∧
    discover_projects { diskPQ with walk := [pathMarkerP] ++ pathMarkerQ :: [] } =
      discover_projects { diskPQ with walk := [pathMarkerP] ++ [] } :=
  ⟨by decide, (discovery_skips_unparseable diskPQ [pathMarkerP] [] pathMarkerQ
    (by decide)).1⟩

/-- C8: for a registered project with an empty docs index, `get_docs` returns
the advisory success even when a topic is supplied; with a non-empty index and
a topic absent from it, it returns an error enumerating the available topics. -/
theorem get_docs_topic_semantics (s : Server) (args : Value)
    (project_name : String) (pd : ProjectData)
    (hp : argStr args "project" = some project_name)
    (hfound : alistGet s.projects project_name = some pd) :
    (pd.docs.docs = [] →
      tool_get_docs s args = .ok ("No documentation index found for '" ++ project_name ++
        "'. Create .jumble/docs.toml to index project documentation.")) ∧
    (pd.docs.docs ≠ [] → ∀ t, argStr args "topic" = some t →
      alistGet pd.docs.docs t = none →
      tool_get_docs s args = .error ("Doc '" ++ t ++ "' not found. Available: " ++
        String.intercalate ", " (alistKeys pd.docs.docs))) := by
  constructor
  · intro hempty
    unfold tool_get_docs
    rw [hp]
    simp [hfound, hempty]
  · intro hne t ht hmiss
    unfold tool_get_docs
    rw [hp]
    have hne' : pd.docs.docs.isEmpty = false := by
      cases hd : pd.docs.docs with
      | nil => exact absurd hd hne
      | cons a l => rfl
    simp [hfound, hne', ht, hmiss]

/-- Witness for C8: the advisory on an empty index despite a topic argument, and
the enumerating error on a non-empty index with an unknown topic. -/
theorem get_docs_topic_semantics_witness :
    tool_get_docs serverA argsDocsGuide = .ok ("No documentation index found for 'p'." ++
      " Create .jumble/docs.toml to index project documentation.") ∧
    tool_get_docs serverDocs argsDocsGuide =
      .error "Doc 'guide' not found. Available: setup" :=
  ⟨by
    have h := (get_docs_topic_semantics serverA argsDocsGuide "p" pdA rfl rfl).1 rfl
    simpa using h,
   by
    have h := (get_docs_topic_semantics serverDocs argsDocsGuide "p" pdDocs rfl rfl).2
      (by decide) "guide" rfl rfl
    simpa using h⟩

/-- C6: for a registered project, `get_related_files` computes exactly the list
of all concepts whose key or summary contains the query as a case-insensitive
substring — the union of matches, not only the first — renders every one of
them, and errors precisely when that match list is empty. -/
theorem related_files_union_semantics (s : Server) (args : Value)
    (project_name query : String) (pd : ProjectData)
    (hp : argStr args "project" = some project_name)
    (hq : argStr args "query" = some query)
    (hfound : alistGet s.projects project_name = some pd) :
    (tool_get_related_files s args =
        .error ("No concepts matching '" ++ query ++ "' found") ↔
      pd.config.concepts.filter (subMatch (lowerStr query)) = []) ∧
    (∀ ms, ms = pd.config.concepts.filter (subMatch (lowerStr query)) → ms ≠ [] →
      tool_get_related_files s args = .ok (ms.foldl (fun output p =>
        output ++ "## " ++ p.1 ++ "\n" ++ p.2.summary ++ "\n\nFiles:\n" ++
          p.2.files.foldl (fun acc file =>
            acc ++ "- " ++ pd.dir.display ++ "/" ++ file ++ "\n") "" ++ "\n")
        ("Files related to '" ++ query ++ "': \n\n"))) := by
  have hfold : pd.config.concepts.foldl
      (fun acc p => if subMatch (lowerStr query) p then acc ++ [p] else acc) [] =
      pd.config.concepts.filter (subMatch (lowerStr query)) := by
    simpa using foldl_append_filter (subMatch (lowerStr query)) pd.config.concepts []
  constructor
  · unfold tool_get_related_files
    rw [hp, hq]
    cases hf : pd.config.concepts.filter (subMatch (lowerStr query)) with
    | nil => simp [hfound, hfold, hf]
    | cons m ms => simp [hfound, hfold, hf]
  · intro ms hms hne
    unfold tool_get_related_files
    rw [hp, hq]
    have hne' : ms.isEmpty = false := by
      cases hd : ms with
      | nil => exact absurd hd hne
      | cons a l => rfl
    simp [hfound, hfold, ← hms, hne']

/-- Witness for C6: the query `auth` matches both concepts of `configA` (the
key `auth` and, by substring, the key `oauth`), so both are rendered; the query
`zzz` matches none and errors. -/
theorem related_files_union_semantics_witness :
    tool_get_related_files serverA argsQueryAuth = .ok ("Files related to 'auth': \n\n" ++
      "## auth\nlogin flow\n\nFiles:\n- /ws/p/src/auth.rs\n\n" ++
      "## oauth\ntoken exchange\n\nFiles:\n- /ws/p/src/oauth.rs\n\n") ∧
    tool_get_related_files serverA argsQueryZzz =
      .error "No concepts matching 'zzz' found" :=
  ⟨by
    have h := (related_files_union_semantics serverA argsQueryAuth "p" "auth" pdA
      rfl rfl rfl).2 (configA.concepts.filter (subMatch (lowerStr "auth"))) rfl
      (by decide)
    rw [h]
    rfl,
   by
    exact (related_files_union_semantics serverA argsQueryZzz "p" "zzz" pdA
      rfl rfl rfl).1.mpr (by decide)⟩

/-- C5 counterexample: for a registered project whose conventions and gotchas
are both empty, `get_conventions` with the invalid category `weird` returns the
advisory success — not the unknown-category error the claim requires for every
registered project — because the source checks the both-empty advisory before
ever looking at the category. -/
theorem conventions_unknown_category_cex :
    argStr argsBadCategory "category" = some "weird" ∧
    tool_get_conventions serverA argsBadCategory = .ok ("No conventions found for 'p'." ++
      " Create .jumble/conventions.toml to add project-specific conventions and gotchas.") := by
  constructor
  · rfl
  · rfl

/-- C5 amended: `get_conventions` (resp. `get_workspace_conventions`) with a
category that is neither `conventions` nor `gotchas` returns the
unknown-category error, *provided* the project (resp. the workspace) defines at
least one convention or gotcha; when both maps are empty the advisory success
is returned instead, even for an invalid category. -/
theorem conventions_unknown_category_error (s : Server) (c : String)
    (hc1 : c ≠ "conventions") (hc2 : c ≠ "gotchas") :
    (∀ args project_name pd, argStr args "project" = some project_name →
      alistGet s.projects project_name = some pd →
      argStr args "category" = some c →
      (pd.conventions.conventions ≠ [] ∨ pd.conventions.gotchas ≠ []) →
      tool_get_conventions s args =
        .error ("Unknown category '" ++ c ++ "'. Use 'conventions' or 'gotchas'.")) ∧
    (∀ args ws, s.workspace = some ws →
      argStr args "category" = some c →
      (ws.conventions ≠ [] ∨ ws.gotchas ≠ []) →
      tool_get_workspace_conventions s args =
        .error ("Unknown category '" ++ c ++ "'. Use 'conventions' or 'gotchas'.")) := by
  constructor
  · intro args project_name pd hp hfound hcat hne
    unfold tool_get_conventions
    rw [hp]
    have hcond : (pd.conventions.conventions.isEmpty && pd.conventions.gotchas.isEmpty)
        = false := by
      rcases hne with h | h <;> simp [List.isEmpty_iff, h]
    simp [hfound, hcat, hcond, hc1, hc2]
  · intro args ws hws hcat hne
    unfold tool_get_workspace_conventions
    rw [hws]
    have hcond : (ws.conventions.isEmpty && ws.gotchas.isEmpty) = false := by
      rcases hne with h | h <;> simp [List.isEmpty_iff, h]
    simp [hcat, hcond, hc1, hc2]

/-- Witness for the amended C5 at a project and a workspace that both define a
convention. -/
theorem conventions_unknown_category_error_witness :
    tool_get_conventions serverConv argsBadCategory =
      .error "Unknown category 'weird'. Use 'conventions' or 'gotchas'." ∧
    tool_get_workspace_conventions serverConv argsBadCategory =
      .error "Unknown category 'weird'. Use 'conventions' or 'gotchas'." :=
  ⟨by
    have h := (conventions_unknown_category_error serverConv "weird"
      (by decide) (by decide)).1 argsBadCategory "p" pdConv rfl rfl rfl
      (Or.inl (by decide))
    simpa using h,
   by
    have h := (conventions_unknown_category_error serverConv "weird"
      (by decide) (by decide)).2 argsBadCategory wsConfig rfl rfl
      (Or.inl (by decide))
    simpa using h⟩

/-- C2 counterexample: two registries with the *same content* — the concept
mappings are permutations of each other, as a `HashMap`'s iteration order may
legitimately differ between two runs — give different `get_architecture`
results for the same arguments (query `aut` substring-matches both `auth` and
`oauth`, and stage 3 returns the first match in iteration order).  So the
result is not independent of the mapping's iteration order. -/
theorem get_architecture_order_dependent :
    configA.concepts.Perm configB.concepts ∧
    tool_get_architecture serverA argsConceptAut ≠
      tool_get_architecture serverB argsConceptAut := by
  constructor
  · decide
  · decide

/-- C2 amended: concept resolution is a strict three-stage fallback — an exact
key match always wins (and, with the HashMap invariant of distinct keys, that
stage is independent of iteration order), else the first case-insensitive key
match in mapping order wins, else the first substring match (key or summary) in
mapping order wins, else the error lists the available concepts.  When several
stage-2 or stage-3 candidates exist, which one is returned depends on the
mapping's iteration order, so full determinism across permutations of the same
registry content does not hold (see the counterexample). -/
theorem get_architecture_staged_resolution (s : Server) (args : Value)
    (project_name concept_name : String) (pd : ProjectData)
    (hp : argStr args "project" = some project_name)
    (hc : argStr args "concept" = some concept_name)
    (hfound : alistGet s.projects project_name = some pd) :
    ((alistKeys pd.config.concepts).Nodup → ∀ concept,
      (concept_name, concept) ∈ pd.config.concepts →
      tool_get_architecture s args = .ok (format_concept pd.dir concept_name concept)) ∧
    (alistGet pd.config.concepts concept_name = none →
      ∀ p, pd.config.concepts.find? (ciMatch (lowerStr concept_name)) = some p →
      tool_get_architecture s args = .ok (format_concept pd.dir p.1 p.2)) ∧
    (alistGet pd.config.concepts concept_name = none →
      pd.config.concepts.find? (ciMatch (lowerStr concept_name)) = none →
      ∀ p, pd.config.concepts.find? (subMatch (lowerStr concept_name)) = some p →
      tool_get_architecture s args = .ok (format_concept pd.dir p.1 p.2)) ∧
    (alistGet pd.config.concepts concept_name = none →
      pd.config.concepts.find? (ciMatch (lowerStr concept_name)) = none →
      pd.config.concepts.find? (subMatch (lowerStr concept_name)) = none →
      tool_get_architecture s args = .error ("Concept '" ++ concept_name ++
        "' not found. Available concepts: " ++
        String.intercalate ", " (alistKeys pd.config.concepts))) := by
  refine ⟨?_, ?_, ?_, ?_⟩
  · intro hnd concept hmem
    have hexact := alistGet_eq_of_mem_nodup hnd hmem
    unfold tool_get_architecture
    rw [hp, hc]
    simp [hfound, hexact]
  · intro hnone p hci
    unfold tool_get_architecture
    rw [hp, hc]
    simp [hfound, hnone, hci]
  · intro hnone hci p hsub
    unfold tool_get_architecture
    rw [hp, hc]
    simp [hfound, hnone, hci, hsub]
  · intro hnone hci hsub
    unfold tool_get_architecture
    rw [hp, hc]
    simp [hfound, hnone, hci, hsub]

/-- Witness for the amended C2: `OAuth` resolves by the case-insensitive stage
to `oauth`; `aut` has no exact or case-insensitive match and resolves by the
substring stage to the first match in mapping order, `auth`. -/
theorem get_architecture_staged_resolution_witness :
    tool_get_architecture serverA argsConceptOAuth =
      .ok (format_concept dirP "oauth" conceptOauth) ∧
    tool_get_architecture serverA argsConceptAut =
      .ok (format_concept dirP "auth" conceptAuth) :=
  ⟨by
    have h := (get_architecture_staged_resolution serverA argsConceptOAuth "p" "OAuth"
      pdA rfl rfl rfl).2.1 (by decide) ("oauth", conceptOauth) (by decide)
    simpa using h,
   by
    have h := (get_architecture_staged_resolution serverA argsConceptAut "p" "aut"
      pdA rfl rfl rfl).2.2.1 (by decide) (by decide) ("auth", conceptAuth) (by decide)
    simpa using h⟩

/-- C9: a `tools/call` whose arguments object omits a required argument gets a
tool-level error payload — a protocol success whose content is flagged as an
error with a `Missing ... argument` message — never a protocol-level -32602
error object: each project-scoped tool without a `project` string, and
`get_architecture` / `get_related_files` / `get_prompt` without their
`concept` / `query` / `topic` string, answer through the error-flagged
success payload. -/
theorem missing_argument_tool_level (disk : Disk) (s : Server) :
    (∀ args, argStr args "project" = none →
      handle_tools_call disk s (mkCallParams "get_project_info" args) =
        .ok (errorPayload "Missing 'project' argument") ∧
      handle_tools_call disk s (mkCallParams "get_commands" args) =
        .ok (errorPayload "Missing 'project' argument") ∧
      handle_tools_call disk s (mkCallParams "get_architecture" args) =
        .ok (errorPayload "Missing 'project' argument") ∧
      handle_tools_call disk s (mkCallParams "get_related_files" args) =
        .ok (errorPayload "Missing 'project' argument") ∧
      handle_tools_call disk s (mkCallParams "list_prompts" args) =
        .ok (errorPayload "Missing 'project' argument") ∧
      handle_tools_call disk s (mkCallParams "get_prompt" args) =
        .ok (errorPayload "Missing 'project' argument") ∧
      handle_tools_call disk s (mkCallParams "get_conventions" args) =
        .ok (errorPayload "Missing 'project' argument") ∧
      handle_tools_call disk s (mkCallParams "get_docs" args) =
        .ok (errorPayload "Missing 'project' argument")) ∧
    (∀ args p, argStr args "project" = some p → argStr args "concept" = none →
      handle_tools_call disk s (mkCallParams "get_architecture" args) =
        .ok (errorPayload "Missing 'concept' argument")) ∧
    (∀ args p, argStr args "project" = some p → argStr args "query" = none →
      handle_tools_call disk s (mkCallParams "get_related_files" args) =
        .ok (errorPayload "Missing 'query' argument")) ∧
    (∀ args p, argStr args "project" = some p → argStr args "topic" = none →
      handle_tools_call disk s (mkCallParams "get_prompt" args) =
        .ok (errorPayload "Missing 'topic' argument")) := by
  have hargs : ∀ n args, ((mkCallParams n args).getField "arguments").getD (Value.obj [])
      = args := by
    intro n args
    rw [mkCallParams_arguments]
    rfl
  refine ⟨?_, ?_, ?_, ?_⟩
  · intro args hmiss
    refine ⟨?_, ?_, ?_, ?_, ?_, ?_, ?_, ?_⟩ <;>
      (apply handle_tools_call_err _ _ _ _ _ (mkCallParams_name _ _)) <;>
      rw [hargs] <;>
      simp [toolDispatch, tool_get_project_info, tool_get_commands,
        tool_get_architecture, tool_get_related_files, tool_list_prompts,
        tool_get_prompt, tool_get_conventions, tool_get_docs, hmiss]
  · intro args p hp hmiss
    apply handle_tools_call_err _ _ _ _ _ (mkCallParams_name _ _)
    rw [hargs]
    simp [toolDispatch, tool_get_architecture, hp, hmiss]
  · intro args p hp hmiss
    apply handle_tools_call_err _ _ _ _ _ (mkCallParams_name _ _)
    rw [hargs]
    simp [toolDispatch, tool_get_related_files, hp, hmiss]
  · intro args p hp hmiss
    apply handle_tools_call_err _ _ _ _ _ (mkCallParams_name _ _)
    rw [hargs]
    simp [toolDispatch, tool_get_prompt, hp, hmiss]

/-- Witness for C9 at the empty arguments object. -/
theorem missing_argument_tool_level_witness :
    handle_tools_call diskPQ serverA (mkCallParams "get_project_info" (Value.obj [])) =
      .ok (errorPayload "Missing 'project' argument") ∧
    handle_tools_call diskPQ serverA (mkCallParams "get_architecture" argsProjectP) =
      .ok (errorPayload "Missing 'concept' argument") :=
  ⟨((missing_argument_tool_level diskPQ serverA).1 (Value.obj []) rfl).1,
   (missing_argument_tool_level diskPQ serverA).2.1 argsProjectP "p" rfl rfl⟩

/-- C3: the `reload_workspace` pseudo-tool rebuilds the workspace descriptor
and the whole project registry from current disk state and answers with a
success payload; afterwards a project name not discovered on the current disk
(e.g. its descriptor was deleted) answers `not found` to queries, and a project
discovered on the current disk (e.g. its descriptor was just added) answers
successfully — without restarting the process. -/
theorem reload_rebuilds_registry (disk : Disk) (s : Server) (params : Value)
    (hname : argStr params "name" = some "reload_workspace") :
    (srv_handle_tools_call disk s params).1 =
      .ok (successPayload "Workspace and projects reloaded from disk.") ∧
    (srv_handle_tools_call disk s params).2 =
      { s with workspace := disk.workspaceLoad, projects := discover_projects disk } ∧
    (∀ args n, argStr args "project" = some n →
      alistGet (discover_projects disk) n = none →
      tool_get_project_info (srv_handle_tools_call disk s params).2 args =
        .error ("Project '" ++ n ++ "' not found")) ∧
    (∀ args n pd, argStr args "project" = some n → argStr args "field" = none →
      alistGet (discover_projects disk) n = some pd →
      (tool_get_project_info (srv_handle_tools_call disk s params).2 args).isOk = true) := by
  have hcall : srv_handle_tools_call disk s params =
      (.ok (successPayload "Workspace and projects reloaded from disk."),
        { s with workspace := disk.workspaceLoad, projects := discover_projects disk }) := by
    unfold srv_handle_tools_call
    rw [hname]
    simp [srvDispatch, reload_workspace_and_projects]
  refine ⟨by rw [hcall], by rw [hcall], ?_, ?_⟩
  · intro args n hp hnone
    rw [hcall]
    unfold tool_get_project_info
    rw [hp]
    simp [hnone]
  · intro args n pd hp hfield hsome
    rw [hcall]
    unfold tool_get_project_info
    rw [hp]
    simp [hsome, hfield, Except.isOk, Except.toBool]

/-- Witness for C3: reloading over `diskPQ` from a stale empty registry makes
project `p` (present on disk) appear and leaves `q` (whose descriptor does not
parse on disk) absent. -/
theorem reload_rebuilds_registry_witness :
    (srv_handle_tools_call diskPQ serverStale
      (mkCallParams "reload_workspace" (Value.obj []))).1 =
      .ok (successPayload "Workspace and projects reloaded from disk.") ∧
    tool_get_project_info (srv_handle_tools_call diskPQ serverStale
      (mkCallParams "reload_workspace" (Value.obj []))).2 argsProjectQ =
      .error "Project 'q' not found" ∧
    (tool_get_project_info (srv_handle_tools_call diskPQ serverStale
      (mkCallParams "reload_workspace" (Value.obj []))).2 argsProjectP).isOk = true := by
  refine ⟨(reload_rebuilds_registry diskPQ serverStale
    (mkCallParams "reload_workspace" (Value.obj [])) rfl).1, ?_, ?_⟩
  · have h := (reload_rebuilds_registry diskPQ serverStale
      (mkCallParams "reload_workspace" (Value.obj [])) rfl).2.2.1 argsProjectQ "q"
      rfl (by decide)
    simpa using h
  · exact (reload_rebuilds_registry diskPQ serverStale
      (mkCallParams "reload_workspace" (Value.obj [])) rfl).2.2.2 argsProjectP "p" pdA
      rfl rfl (by decide)

/-- C1: the two error tiers are never conflated.  Protocol tier: an unknown
method yields a protocol error object with code -32601 and no result; a
`tools/call` without a `name` parameter yields code -32602 and no result.
Tool tier: any dispatch failure — and in particular an unknown tool name, an
unknown project, an unknown field, an unknown category, a prompt topic not
found — is delivered as a protocol *success* whose payload is the
error-flagged text block; a `tools/call` carrying a name never produces a
protocol error; and every response carries exactly one of result / error. -/
theorem two_tier_error_taxonomy (disk : Disk) (s : Server) :
    (∀ id params m, m ≠ "initialize" → m ≠ "initialized" → m ≠ "tools/list" →
      m ≠ "tools/call" →
      handle_request disk s ⟨id, m, params⟩ =
        ⟨id, none, some ⟨-32601, "Method not found: " ++ m, none⟩⟩) ∧
    (∀ id params, argStr params "name" = none →
      handle_request disk s ⟨id, "tools/call", params⟩ =
        ⟨id, none, some ⟨-32602, "Missing 'name' parameter", none⟩⟩) ∧
    (∀ id params name msg, argStr params "name" = some name →
      toolDispatch disk s name ((params.getField "arguments").getD (Value.obj [])) =
        .error msg →
      handle_request disk s ⟨id, "tools/call", params⟩ =
        ⟨id, some (errorPayload msg), none⟩) ∧
    (∀ params name, argStr params "name" = some name →
      ∃ v, handle_tools_call disk s params = .ok v) ∧
    (∀ req : JsonRpcRequest,
      ((handle_request disk s req).result.isSome = true ∧
        (handle_request disk s req).error = none) ∨
      ((handle_request disk s req).result = none ∧
        (handle_request disk s req).error.isSome = true)) ∧
    (∀ args name, name ≠ "list_projects" → name ≠ "get_project_info" →
      name ≠ "get_commands" → name ≠ "get_architecture" → name ≠ "get_related_files" →
      name ≠ "list_prompts" → name ≠ "get_prompt" → name ≠ "get_conventions" →
      name ≠ "get_docs" → name ≠ "get_workspace_overview" →
      name ≠ "get_workspace_conventions" →
      toolDispatch disk s name args = .error ("Unknown tool: " ++ name)) ∧
    (∀ args pn, argStr args "project" = some pn → alistGet s.projects pn = none →
      toolDispatch disk s "get_project_info" args =
        .error ("Project '" ++ pn ++ "' not found")) ∧
    (∀ args pn pd f, argStr args "project" = some pn →
      alistGet s.projects pn = some pd → argStr args "field" = some f →
      f ≠ "commands" → f ≠ "entry_points" → f ≠ "dependencies" → f ≠ "api" →
      f ≠ "related_projects" →
      toolDispatch disk s "get_project_info" args = .error ("Unknown field: " ++ f)) ∧
    (∀ args pn pd c, argStr args "project" = some pn →
      alistGet s.projects pn = some pd → argStr args "category" = some c →
      c ≠ "conventions" → c ≠ "gotchas" →
      (pd.conventions.conventions ≠ [] ∨ pd.conventions.gotchas ≠ []) →
      toolDispatch disk s "get_conventions" args =
        .error ("Unknown category '" ++ c ++ "'. Use 'conventions' or 'gotchas'.")) ∧
    (∀ args pn pd t, argStr args "project" = some pn → argStr args "topic" = some t →
      alistGet s.projects pn = some pd → alistGet pd.prompts.prompts t = none →
      pd.prompts.prompts ≠ [] →
      toolDispatch disk s "get_prompt" args = .error ("Prompt '" ++ t ++
        "' not found. Available: " ++ String.intercalate ", "
        (alistKeys pd.prompts.prompts))) := by
  refine ⟨?_, ?_, ?_, ?_, ?_, ?_, ?_, ?_, ?_, ?_⟩
  · intro id params m h1 h2 h3 h4
    unfold handle_request methodDispatch
    simp [h1, h2, h3, h4]
  · intro id params hmiss
    unfold handle_request methodDispatch handle_tools_call
    rw [hmiss]
    simp
  · intro id params name msg hname hdisp
    unfold handle_request methodDispatch
    rw [handle_tools_call_err disk s params name msg hname hdisp]
    simp
  · intro params name hname
    unfold handle_tools_call
    rw [hname]
    cases h : toolDispatch disk s name ((params.getField "arguments").getD (Value.obj []))
      with
    | error msg => exact ⟨errorPayload msg, by simp [h]⟩
    | ok content => exact ⟨successPayload content, by simp [h]⟩
  · intro req
    unfold handle_request
    cases methodDispatch disk s req.method req.params <;> simp
  · intro args name h1 h2 h3 h4 h5 h6 h7 h8 h9 h10 h11
    unfold toolDispatch
    simp [h1, h2, h3, h4, h5, h6, h7, h8, h9, h10, h11]
  · intro args pn hp hnone
    unfold toolDispatch tool_get_project_info
    rw [hp]
    simp [hnone]
  · intro args pn pd f hp hfound hf hne1 hne2 hne3 hne4 hne5
    unfold toolDispatch tool_get_project_info
    rw [hp]
    simp [hfound, hf, hne1, hne2, hne3, hne4, hne5]
  · intro args pn pd c hp hfound hcat hne1 hne2 hne
    unfold toolDispatch tool_get_conventions
    rw [hp]
    have hcond : (pd.conventions.conventions.isEmpty && pd.conventions.gotchas.isEmpty)
        = false := by
      rcases hne with h | h <;> simp [List.isEmpty_iff, h]
    simp [hfound, hcat, hcond, hne1, hne2]
  · intro args pn pd t hp ht hfound hnone hne
    unfold toolDispatch tool_get_prompt
    rw [hp, ht]
    have hne' : pd.prompts.prompts.isEmpty = false := by
      cases hd : pd.prompts.prompts with
      | nil => exact absurd hd hne
      | cons a l => rfl
    simp [hfound, hnone, hne']

/-- Witness for C1: an unknown method and a nameless `tools/call` produce the
coded protocol error objects, while an unknown tool name produces the
error-flagged protocol success. -/
theorem two_tier_error_taxonomy_witness :
    handle_request diskPQ serverA ⟨some (Value.num 1), "bogus/method", Value.null⟩ =
      ⟨some (Value.num 1), none,
        some ⟨-32601, "Method not found: bogus/method", none⟩⟩ ∧
    handle_request diskPQ serverA ⟨none, "tools/call", Value.obj []⟩ =
      ⟨none, none, some ⟨-32602, "Missing 'name' parameter", none⟩⟩ ∧
    handle_request diskPQ serverA
        ⟨none, "tools/call", mkCallParams "nope" (Value.obj [])⟩ =
      ⟨none, some (errorPayload "Unknown tool: nope"), none⟩ := by
  refine ⟨?_, ?_, ?_⟩
  · have h := (two_tier_error_taxonomy diskPQ serverA).1 (some (Value.num 1)) Value.null
      "bogus/method" (by decide) (by decide) (by decide) (by decide)
    simpa using h
  · exact (two_tier_error_taxonomy diskPQ serverA).2.1 none (Value.obj []) rfl
  · exact (two_tier_error_taxonomy diskPQ serverA).2.2.1 none
      (mkCallParams "nope" (Value.obj [])) "nope" "Unknown tool: nope" rfl
      ((two_tier_error_taxonomy diskPQ serverA).2.2.2.2.2.1 (Value.obj []) "nope"
        (by decide) (by decide) (by decide) (by decide) (by decide) (by decide)
        (by decide) (by decide) (by decide) (by decide) (by decide))

end Jumble
